import Mathlib

/-!
Verification development for the market price tracker repository.

The repository is a Python application; its business core is shallowly
embedded here. The relational store is modelled as an explicit record of
row lists (orders, order items) threaded through each operation; the
auto-increment order key LAST_INSERT_ID is modelled by the field
next_order_id. Storage writes are modelled as always succeeding: storage
failures are out of scope of the verified claims. Monetary quantities and
prices (SQL DECIMAL, Python float) are modelled as rationals. Result
message strings of the source are modelled by inductive result types whose
constructors are documented with the exact source message.

Embedded code:
  src/order_manager.py   (OrderManager.create_order, get_order_by_id,
                          update_order_status, cancel_order)
  main_enhanced.py       (EnhancedMarketPriceTracker.place_order guard flow)
  src/permissions.py     (Permissions.can_manage_order, can_cancel_order)
  src/auth.py            (AuthManager.login)
  src/analytics.py       (Analytics._calculate_trend,
                          get_product_price_statistics trend gating,
                          get_price_forecast_data)
-/

namespace MarketTracker

/-- One element of the items list passed to create_order: a dict with keys
product_id, quantity, unit_price; the UI order-placement flow additionally
stores market_id on each item (main_enhanced.py place_order). -/
structure ItemInput where
  product_id : Nat
  market_id : Nat
  quantity : ℚ
  unit_price : ℚ
deriving Repr, DecidableEq

/-- A row of the orders table (columns used by the embedded operations).
updated_at is NULL (none) until the first status update. -/
structure OrderRow where
  order_id : Nat
  customer_id : Nat
  market_id : Nat
  total_amount : ℚ
  status : String
  updated_at : Option Nat
deriving Repr, DecidableEq

/-- A row of the order_items table. -/
structure ItemRow where
  order_id : Nat
  product_id : Nat
  quantity : ℚ
  unit_price : ℚ
  subtotal : ℚ
deriving Repr, DecidableEq

/-- The mutable store visible to the order manager: the orders and
order_items tables plus the auto-increment counter for order ids. -/
structure Db where
  orders : List OrderRow
  order_items : List ItemRow
  next_order_id : Nat
deriving Repr, DecidableEq

/-- A row of the users table (columns used by the embedded operations;
presentation-only columns such as full_name and phone_number are omitted). -/
structure User where
  user_id : Nat
  username : String
  email : String
  password_hash : String
  role : String
  status : String
deriving Repr, DecidableEq

/-- Result messages of update_order_status and cancel_order
(src/order_manager.py). Constructor to source message:
invalidStatus = "Invalid status. Must be one of: ...",
statusUpdated s = "Order status updated to " followed by s,
notFound = "Order not found",
permissionDenied = the you-do-not-have-permission-to-cancel message,
cannotCancel s = "Cannot cancel order with status: " followed by s. -/
inductive OrderMsg where
  | invalidStatus
  | statusUpdated (status : String)
  | notFound
  | permissionDenied
  | cannotCancel (status : String)
deriving Repr, DecidableEq

/-- The total computed by create_order (src/order_manager.py line 24):
the sum of quantity times unit_price over the items. -/
def order_total (items : List ItemInput) : ℚ :=
  (items.map fun it => it.quantity * it.unit_price).sum

/-- The order row inserted by create_order (src/order_manager.py lines
27-36): status is literally 'pending' in the INSERT, and the statement has
no client-supplied total parameter. -/
def new_order_row (oid customer_id market_id : Nat) (items : List ItemInput) : OrderRow :=
  { order_id := oid, customer_id := customer_id, market_id := market_id,
    total_amount := order_total items, status := "pending", updated_at := none }

/-- The order_items rows inserted by create_order (src/order_manager.py
lines 47-57): one row per item with subtotal = quantity times unit_price. -/
def new_item_rows (oid : Nat) (items : List ItemInput) : List ItemRow :=
  items.map fun it =>
    { order_id := oid, product_id := it.product_id, quantity := it.quantity,
      unit_price := it.unit_price, subtotal := it.quantity * it.unit_price }

/-- OrderManager.create_order (src/order_manager.py lines 17-59): computes
the total server-side, inserts the order row (status 'pending', id from
LAST_INSERT_ID), inserts the item rows, and returns (success, order id). -/
def create_order (db : Db) (customer_id market_id : Nat) (items : List ItemInput) :
    Db × Bool × Option Nat :=
  ({ orders := db.orders ++ [new_order_row db.next_order_id customer_id market_id items],
     order_items := db.order_items ++ new_item_rows db.next_order_id items,
     next_order_id := db.next_order_id + 1 }, true, some db.next_order_id)

/-- OrderManager.get_order_by_id (src/order_manager.py lines 61-74): the
first orders row with the given id (the joins to users and markets only add
display columns and are assumed referentially intact). -/
def get_order_by_id (db : Db) (oid : Nat) : Option OrderRow :=
  (db.orders.filter fun o => decide (o.order_id = oid)).head?

/-- The valid_statuses list of OrderManager.update_order_status. -/
def valid_statuses : List String :=
  ["pending", "confirmed", "processing", "ready", "completed", "cancelled"]

/-- OrderManager.update_order_status (src/order_manager.py lines 134-146):
rejects a status outside valid_statuses, otherwise sets status and
updated_at = NOW() on every orders row with the given id. There is no
check of the current status and no acting-identity parameter. -/
def update_order_status (db : Db) (oid : Nat) (status : String) (now : Nat) :
    Db × Bool × OrderMsg :=
  if status ∉ valid_statuses then
    (db, false, OrderMsg.invalidStatus)
  else
    ({ db with orders := db.orders.map fun o =>
        if o.order_id = oid then { o with status := status, updated_at := some now } else o },
     true, OrderMsg.statusUpdated status)

/-- OrderManager.cancel_order (src/order_manager.py lines 148-164): looks
the order up, rejects a caller that is neither super_admin nor the order
customer, rejects an order already completed or cancelled, and otherwise
delegates to update_order_status with status 'cancelled'. -/
def cancel_order (db : Db) (oid user_id : Nat) (user_role : String) (now : Nat) :
    Db × Bool × OrderMsg :=
  match get_order_by_id db oid with
  | none => (db, false, OrderMsg.notFound)
  | some o =>
    if user_role ≠ "super_admin" ∧ o.customer_id ≠ user_id then
      (db, false, OrderMsg.permissionDenied)
    else if o.status ∈ (["completed", "cancelled"] : List String) then
      (db, false, OrderMsg.cannotCancel o.status)
    else
      update_order_status db oid "cancelled" now

/-- Result of the order placement flow. Constructor to source behavior
(main_enhanced.py place_order): emptyOrder = the flow aborts with the
order-cancelled warning before any insert, mixedMarket = the flow aborts
with the all-items-must-be-from-the-same-market error, failed = the
failed-to-place-order branch, placed = success with the new order id. -/
inductive PlaceResult where
  | emptyOrder
  | mixedMarket
  | failed
  | placed (order_id : Nat)
deriving Repr, DecidableEq

/-- The order placement flow (main_enhanced.py lines 648-691): aborts when
no items were selected; collects the set of market ids over the items and
aborts when it has more than one element; otherwise takes the single
market id and calls create_order. This caller, not create_order, holds the
empty-items and mixed-market guards. -/
def place_order (db : Db) (user_id : Nat) (items : List ItemInput) : Db × PlaceResult :=
  if items = [] then (db, PlaceResult.emptyOrder)
  else if 1 < ((items.map fun it => it.market_id).dedup).length then
    (db, PlaceResult.mixedMarket)
  else
    let res := create_order db user_id ((items.map fun it => it.market_id).dedup).headI items
    match res.2.2 with
    | some oid => (res.1, PlaceResult.placed oid)
    | none => (res.1, PlaceResult.failed)

/-- Permissions.is_super_admin (src/permissions.py). -/
def is_super_admin (u : User) : Bool := u.role == "super_admin"

/-- Permissions.is_seller (src/permissions.py). -/
def is_seller (u : User) : Bool := u.role == "seller"

/-- Permissions.is_customer (src/permissions.py). -/
def is_customer (u : User) : Bool := u.role == "customer"

/-- Permissions.can_manage_order (src/permissions.py lines 124-132):
true for a super admin, and true for every seller regardless of the order
(the source comment defers a market-ownership validation to the calling
function, and no caller performs one). -/
def can_manage_order (u : User) (_o : OrderRow) : Bool :=
  if is_super_admin u then true
  else if is_seller u then true
  else false

/-- Permissions.can_cancel_order (src/permissions.py lines 134-143). -/
def can_cancel_order (u : User) (o : OrderRow) : Bool :=
  if is_super_admin u then true
  else if is_customer u && (o.customer_id == u.user_id)
      && !((["completed", "cancelled"] : List String).contains o.status) then true
  else false

/-- Result of AuthManager.login. Constructor to source message:
invalidCredentials = "Invalid username or password",
accountSuspended = the account-suspended message,
accountPending = "Your account is pending approval.",
success uid = the welcome message plus a freshly inserted session row for
user uid (token generation and the 7-day expiry are not modelled here). -/
inductive LoginResult where
  | invalidCredentials
  | accountSuspended
  | accountPending
  | success (user_id : Nat)
deriving Repr, DecidableEq

/-- The user lookup of AuthManager.login (src/auth.py lines 71-76): the
first users row whose username or email equals the identifier and whose
status is not 'deleted'. -/
def find_user (users : List User) (ident : String) : Option User :=
  (users.filter fun u =>
    decide ((u.username = ident ∨ u.email = ident) ∧ u.status ≠ "deleted")).head?

/-- AuthManager.login (src/auth.py lines 68-113): looks the user up (the
query already excludes status 'deleted'), then checks status 'suspended',
then status 'pending', and only then verifies the password against the
stored hash. verify abstracts bcrypt.checkpw (password, stored hash). -/
def login (verify : String → String → Bool) (users : List User) (ident pw : String) :
    LoginResult :=
  match find_user users ident with
  | none => LoginResult.invalidCredentials
  | some u =>
    if u.status = "suspended" then LoginResult.accountSuspended
    else if u.status = "pending" then LoginResult.accountPending
    else if !(verify pw u.password_hash) then LoginResult.invalidCredentials
    else LoginResult.success u.user_id

/-- A row of the prices table (columns used by the analytics queries);
dates are day numbers. -/
structure PriceRec where
  product_id : Nat
  market_id : Nat
  price : ℚ
  date : Int
deriving Repr, DecidableEq

/-- Average of a list of rationals (SQL AVG over a nonempty group). -/
def listAvg (l : List ℚ) : ℚ := l.sum / (l.length : ℚ)

/-- The WHERE clause shared by the trend queries (src/analytics.py): rows
of the product, within the trailing window of the given number of days,
optionally restricted to one market. -/
def window_records (recs : List PriceRec) (pid : Nat) (mid : Option Nat)
    (days : Nat) (today : Int) : List PriceRec :=
  recs.filter fun r =>
    decide (r.product_id = pid ∧ today - (days : Int) ≤ r.date ∧
      (∀ m ∈ mid, r.market_id = m))

/-- The rows the CASE expression of _calculate_trend labels 'recent':
window rows dated on or after today minus days div 2 (integer division,
as in the Python days // 2 passed to DATE_SUB). -/
def recent_half (recs : List PriceRec) (pid : Nat) (mid : Option Nat)
    (days : Nat) (today : Int) : List PriceRec :=
  (window_records recs pid mid days today).filter fun r =>
    decide (today - ((days / 2 : Nat) : Int) ≤ r.date)

/-- The rows the CASE expression of _calculate_trend labels 'older'. -/
def older_half (recs : List PriceRec) (pid : Nat) (mid : Option Nat)
    (days : Nat) (today : Int) : List PriceRec :=
  (window_records recs pid mid days today).filter fun r =>
    !(decide (today - ((days / 2 : Nat) : Int) ≤ r.date))

/-- The result set of the GROUP BY period query of _calculate_trend
(src/analytics.py lines 111-129): one (period, AVG(price)) row per
nonempty group. -/
def trend_rows (recs : List PriceRec) (pid : Nat) (mid : Option Nat)
    (days : Nat) (today : Int) : List (String × ℚ) :=
  (if recent_half recs pid mid days today = [] then []
   else [("recent", listAvg ((recent_half recs pid mid days today).map PriceRec.price))]) ++
    (if older_half recs pid mid days today = [] then []
     else [("older", listAvg ((older_half recs pid mid days today).map PriceRec.price))])

/-- Analytics._calculate_trend (src/analytics.py lines 109-145): requires
exactly two group rows, extracts the recent and older averages, and (via
Python truthiness of the conjunction recent-and-older) proceeds only when
both averages are nonzero; classifies the percent change of recent over
older against the 5 percent thresholds; every other path yields 'unknown'. -/
def calculate_trend (recs : List PriceRec) (pid : Nat) (mid : Option Nat)
    (days : Nat) (today : Int) : String :=
  if (trend_rows recs pid mid days today).length = 2 then
    match ((trend_rows recs pid mid days today).filter fun r => r.1 == "recent").head?,
        ((trend_rows recs pid mid days today).filter fun r => r.1 == "older").head? with
    | some rrow, some orow =>
      if rrow.2 ≠ 0 ∧ orow.2 ≠ 0 then
        if 5 < (rrow.2 - orow.2) / orow.2 * 100 then "increasing"
        else if (rrow.2 - orow.2) / orow.2 * 100 < -5 then "decreasing"
        else "stable"
      else "unknown"
    | _, _ => "unknown"
  else "unknown"

/-- The trend field of Analytics.get_product_price_statistics
(src/analytics.py lines 75-107): none when the window holds no rows (the
function returns None), otherwise the _calculate_trend classification. -/
def statistics_trend (recs : List PriceRec) (pid : Nat) (mid : Option Nat)
    (days : Nat) (today : Int) : Option String :=
  if (window_records recs pid mid days today).length ≠ 0 then
    some (calculate_trend recs pid mid days today)
  else none

/-- Modelled from the spec: the trend classification of section 4.4 as
worded there, over the two half averages (none when a half has no data);
a zero older average is treated as unknown, as the spec requires. -/
def specTrendClass (recentAvg olderAvg : Option ℚ) : String :=
  match recentAvg, olderAvg with
  | some ra, some oa =>
    if oa = 0 then "unknown"
    else if 5 < (ra - oa) / oa * 100 then "increasing"
    else if (ra - oa) / oa * 100 < -5 then "decreasing"
    else "stable"
  | _, _ => "unknown"

/-- The moving-average loop of Analytics.get_price_forecast_data
(src/analytics.py lines 247-251): element i is the average of the first
i+1 prices for i below 6, otherwise the average of the 7 prices ending at
position i. -/
def moving_averages (prices : List ℚ) : List ℚ :=
  (List.range prices.length).map fun i =>
    if i < 6 then (prices.take (i + 1)).sum / ((i : ℚ) + 1)
    else ((prices.drop (i - 6)).take 7).sum / 7

/-- Analytics.get_price_forecast_data (src/analytics.py lines 232-257)
reduced to its price series: returns None when the series of the trailing
60-day window holds fewer than 7 records, otherwise the smoothed series. -/
def get_price_forecast_data (prices : List ℚ) : Option (List ℚ) :=
  if prices.length < 7 then none
  else some (moving_averages prices)

/-- The order_items rows belonging to one order. -/
def rowsFor (db : Db) (oid : Nat) : List ItemRow :=
  db.order_items.filter fun it => decide (it.order_id = oid)

/-- Line-item consistency: every stored order total equals the sum of the
subtotals of its item rows, and every item row subtotal equals its
quantity times its unit price. -/
def totalsConsistent (db : Db) : Prop :=
  (∀ o ∈ db.orders, o.total_amount = ((rowsFor db o.order_id).map ItemRow.subtotal).sum) ∧
    (∀ it ∈ db.order_items, it.subtotal = it.quantity * it.unit_price)

/-- Auto-increment soundness: every stored order id is below the counter. -/
def idsBounded (db : Db) : Prop :=
  (∀ o ∈ db.orders, o.order_id < db.next_order_id) ∧
    (∀ it ∈ db.order_items, it.order_id < db.next_order_id)

/-- Well-formedness of the store. -/
def wf (db : Db) : Prop := totalsConsistent db ∧ idsBounded db

instance (db : Db) : Decidable (totalsConsistent db) :=
  inferInstanceAs (Decidable (And _ _))

instance (db : Db) : Decidable (idsBounded db) :=
  inferInstanceAs (Decidable (And _ _))

instance (db : Db) : Decidable (wf db) :=
  inferInstanceAs (Decidable (And _ _))

/-- The mutating operations of the order lifecycle. -/
inductive Op where
  | create (customer_id market_id : Nat) (items : List ItemInput)
  | place (user_id : Nat) (items : List ItemInput)
  | update (oid : Nat) (status : String) (now : Nat)
  | cancel (oid user_id : Nat) (user_role : String) (now : Nat)

/-- Effect of one operation on the store. -/
def applyOp (db : Db) : Op → Db
  | Op.create c m items => (create_order db c m items).1
  | Op.place u items => (place_order db u items).1
  | Op.update oid st now => (update_order_status db oid st now).1
  | Op.cancel oid u r now => (cancel_order db oid u r now).1

/-- Effect of a sequence of operations on the store. -/
def applyOps (db : Db) : List Op → Db
  | [] => db
  | op :: ops => applyOps (applyOp db op) ops

theorem new_item_rows_id (oid : Nat) (items : List ItemInput) :
    ∀ it ∈ new_item_rows oid items, it.order_id = oid := by
  intro it hit
  obtain ⟨x, _, hx⟩ := List.mem_map.mp hit
  rw [← hx]

theorem new_item_rows_subtotal (oid : Nat) (items : List ItemInput) :
    ∀ it ∈ new_item_rows oid items, it.subtotal = it.quantity * it.unit_price := by
  intro it hit
  obtain ⟨x, _, hx⟩ := List.mem_map.mp hit
  rw [← hx]

theorem rowsFor_create (db : Db) (c m : Nat) (items : List ItemInput) (oid : Nat) :
    rowsFor (create_order db c m items).1 oid
      = rowsFor db oid ++ (new_item_rows db.next_order_id items).filter
          (fun it => decide (it.order_id = oid)) := by
  unfold rowsFor create_order
  exact List.filter_append _ _

theorem rowsFor_create_old (db : Db) (c m : Nat) (items : List ItemInput) (oid : Nat)
    (h : oid ≠ db.next_order_id) :
    rowsFor (create_order db c m items).1 oid = rowsFor db oid := by
  rw [rowsFor_create]
  have hfil : (new_item_rows db.next_order_id items).filter
      (fun it => decide (it.order_id = oid)) = [] := by
    rw [List.filter_eq_nil_iff]
    intro it hit
    have := new_item_rows_id db.next_order_id items it hit
    simp [this]
    omega
  rw [hfil, List.append_nil]

theorem rowsFor_create_new (db : Db) (c m : Nat) (items : List ItemInput)
    (h : ∀ it ∈ db.order_items, it.order_id < db.next_order_id) :
    rowsFor (create_order db c m items).1 db.next_order_id
      = new_item_rows db.next_order_id items := by
  rw [rowsFor_create]
  have h1 : rowsFor db db.next_order_id = [] := by
    rw [rowsFor, List.filter_eq_nil_iff]
    intro it hit
    have := h it hit
    simp
    omega
  have h2 : (new_item_rows db.next_order_id items).filter
      (fun it => decide (it.order_id = db.next_order_id)) = new_item_rows db.next_order_id items := by
    rw [List.filter_eq_self]
    intro it hit
    simp [new_item_rows_id db.next_order_id items it hit]
  rw [h1, h2, List.nil_append]

theorem wf_create (db : Db) (c m : Nat) (items : List ItemInput) (h : wf db) :
    wf (create_order db c m items).1 := by
  obtain ⟨⟨htot, hsub⟩, hoid, hiid⟩ := h
  refine ⟨⟨?_, ?_⟩, ?_, ?_⟩
  · intro o ho
    have ho' : o ∈ db.orders ++ [new_order_row db.next_order_id c m items] := ho
    rcases List.mem_append.mp ho' with hold | hnew
    · rw [rowsFor_create_old db c m items o.order_id (by have := hoid o hold; omega)]
      exact htot o hold
    · rw [List.mem_singleton.mp hnew]
      show order_total items
          = ((rowsFor (create_order db c m items).1 db.next_order_id).map ItemRow.subtotal).sum
      rw [rowsFor_create_new db c m items hiid]
      unfold order_total new_item_rows
      rw [List.map_map]
      rfl
  · intro it hit
    have hit' : it ∈ db.order_items ++ new_item_rows db.next_order_id items := hit
    rcases List.mem_append.mp hit' with hold | hnew
    · exact hsub it hold
    · exact new_item_rows_subtotal db.next_order_id items it hnew
  · intro o ho
    have ho' : o ∈ db.orders ++ [new_order_row db.next_order_id c m items] := ho
    show o.order_id < db.next_order_id + 1
    rcases List.mem_append.mp ho' with hold | hnew
    · have := hoid o hold
      omega
    · rw [List.mem_singleton.mp hnew]
      show db.next_order_id < db.next_order_id + 1
      omega
  · intro it hit
    have hit' : it ∈ db.order_items ++ new_item_rows db.next_order_id items := hit
    show it.order_id < db.next_order_id + 1
    rcases List.mem_append.mp hit' with hold | hnew
    · have := hiid it hold
      omega
    · rw [new_item_rows_id db.next_order_id items it hnew]
      omega

theorem update_row_id (o : OrderRow) (oid : Nat) (st : String) (now : Nat) :
    (if o.order_id = oid then { o with status := st, updated_at := some now }
      else o).order_id = o.order_id := by
  split <;> rfl

theorem update_row_total (o : OrderRow) (oid : Nat) (st : String) (now : Nat) :
    (if o.order_id = oid then { o with status := st, updated_at := some now }
      else o).total_amount = o.total_amount := by
  split <;> rfl

theorem wf_update (db : Db) (oid : Nat) (st : String) (now : Nat) (h : wf db) :
    wf (update_order_status db oid st now).1 := by
  obtain ⟨⟨htot, hsub⟩, hoid, hiid⟩ := h
  unfold update_order_status
  split
  · exact ⟨⟨htot, hsub⟩, hoid, hiid⟩
  · refine ⟨⟨?_, hsub⟩, ?_, hiid⟩
    · intro o ho
      have ho' : o ∈ db.orders.map fun o0 =>
          if o0.order_id = oid then { o0 with status := st, updated_at := some now } else o0 := ho
      obtain ⟨o0, ho0, rfl⟩ := List.mem_map.mp ho'
      rw [update_row_id, update_row_total]
      exact htot o0 ho0
    · intro o ho
      have ho' : o ∈ db.orders.map fun o0 =>
          if o0.order_id = oid then { o0 with status := st, updated_at := some now } else o0 := ho
      obtain ⟨o0, ho0, rfl⟩ := List.mem_map.mp ho'
      rw [update_row_id]
      exact hoid o0 ho0

theorem wf_cancel (db : Db) (oid uid : Nat) (role : String) (now : Nat) (h : wf db) :
    wf (cancel_order db oid uid role now).1 := by
  unfold cancel_order
  cases hgo : get_order_by_id db oid with
  | none => exact h
  | some o =>
    dsimp only
    split_ifs
    · exact h
    · exact h
    · exact wf_update db oid "cancelled" now h

theorem wf_place (db : Db) (uid : Nat) (items : List ItemInput) (h : wf db) :
    wf (place_order db uid items).1 := by
  unfold place_order
  split
  · exact h
  · split
    · exact h
    · exact wf_create db uid (((items.map fun it => it.market_id).dedup).headI) items h

theorem wf_applyOp (db : Db) (op : Op) (h : wf db) : wf (applyOp db op) := by
  cases op with
  | create c m items => exact wf_create db c m items h
  | place u items => exact wf_place db u items h
  | update oid st now => exact wf_update db oid st now h
  | cancel oid u r now => exact wf_cancel db oid u r now h

theorem wf_applyOps (db : Db) (ops : List Op) (h : wf db) : wf (applyOps db ops) := by
  induction ops generalizing db with
  | nil => exact h
  | cons op ops ih => exact ih (applyOp db op) (wf_applyOp db op h)

/-- C1: every successful create_order call stores the order with
total_amount equal to the sum of quantity times unit_price over the items
and equal to the sum of its item rows subtotals, every stored item row has
subtotal = quantity times unit_price, the initial status is pending, the
total is computed server-side (create_order takes no client-supplied
total: new_order_row derives total_amount from the items alone), and the
total-equals-sum-of-subtotals well-formedness is preserved by every
subsequent operation, none of which edits items or totals. -/
theorem create_order_correct (db : Db) (c m : Nat) (items : List ItemInput) (h : wf db) :
    (create_order db c m items).2.1 = true ∧
    (create_order db c m items).2.2 = some db.next_order_id ∧
    (∃ o ∈ (create_order db c m items).1.orders,
      o.order_id = db.next_order_id ∧ o.status = "pending" ∧ o.customer_id = c ∧
      o.market_id = m ∧ o.total_amount = order_total items ∧
      o.total_amount
        = ((rowsFor (create_order db c m items).1 o.order_id).map ItemRow.subtotal).sum) ∧
    (∀ it ∈ rowsFor (create_order db c m items).1 db.next_order_id,
      it.subtotal = it.quantity * it.unit_price) ∧
    wf (create_order db c m items).1 ∧
    (∀ (d : Db) (ops : List Op), wf d → wf (applyOps d ops)) := by
  have hwf' := wf_create db c m items h
  have hmem : new_order_row db.next_order_id c m items ∈ (create_order db c m items).1.orders := by
    show new_order_row db.next_order_id c m items
        ∈ db.orders ++ [new_order_row db.next_order_id c m items]
    exact List.mem_append.mpr (Or.inr (List.mem_singleton.mpr rfl))
  refine ⟨rfl, rfl, ?_, ?_, hwf', fun d ops hd => wf_applyOps d ops hd⟩
  · exact ⟨new_order_row db.next_order_id c m items, hmem, rfl, rfl, rfl, rfl, rfl,
      hwf'.1.1 _ hmem⟩
  · intro it hit
    exact hwf'.1.2 it (List.mem_filter.mp hit).1

/-- C1 witness: the section 8 scenario, customer 7 at market 2 with items
(product 1, qty 3, price 100) and (product 2, qty 1, price 50): success,
well-formed store, total 350, stored status pending. -/
theorem create_order_correct_w :
    (create_order ⟨[], [], 1⟩ 7 2 [⟨1, 2, 3, 100⟩, ⟨2, 2, 1, 50⟩]).2.1 = true ∧
    wf (create_order ⟨[], [], 1⟩ 7 2 [⟨1, 2, 3, 100⟩, ⟨2, 2, 1, 50⟩]).1 ∧
    order_total [⟨1, 2, 3, 100⟩, ⟨2, 2, 1, 50⟩] = 350 ∧
    (create_order ⟨[], [], 1⟩ 7 2 [⟨1, 2, 3, 100⟩, ⟨2, 2, 1, 50⟩]).1.orders
      = [⟨1, 7, 2, 350, "pending", none⟩] :=
  ⟨(create_order_correct ⟨[], [], 1⟩ 7 2 [⟨1, 2, 3, 100⟩, ⟨2, 2, 1, 50⟩] (by decide)).1,
   (create_order_correct ⟨[], [], 1⟩ 7 2 [⟨1, 2, 3, 100⟩, ⟨2, 2, 1, 50⟩] (by decide)).2.2.2.2.1,
   by norm_num [order_total],
   by norm_num [create_order, new_order_row, order_total]⟩

/-- C2 counterexample: create_order itself performs no empty-items check;
called directly with an empty items list it succeeds and inserts an order
row (with total 0 and no item rows) instead of failing. -/
theorem create_order_empty_cex :
    (create_order ⟨[], [], 1⟩ 7 2 []).2.1 = true ∧
    (create_order ⟨[], [], 1⟩ 7 2 []).2.2 = some 1 ∧
    (create_order ⟨[], [], 1⟩ 7 2 []).1.orders.length = 1 := by
  decide

/-- C2 amended: the empty-items rejection lives in the order placement
flow of the calling UI layer, which aborts before any insert when the
items list is empty, leaving the store unchanged; create_order itself
accepts an empty list. -/
theorem place_order_empty (db : Db) (uid : Nat) :
    place_order db uid [] = (db, PlaceResult.emptyOrder) := rfl

/-- C3 counterexample: create_order itself never inspects the market ids
the items resolve to; called directly with items from markets 2 and 3 on
an order for market 2 it succeeds instead of failing. -/
theorem create_order_mixed_cex :
    (create_order ⟨[], [], 1⟩ 7 2 [⟨1, 2, 3, 100⟩, ⟨2, 3, 1, 50⟩]).2.1 = true ∧
    (create_order ⟨[], [], 1⟩ 7 2 [⟨1, 2, 3, 100⟩, ⟨2, 3, 1, 50⟩]).1.orders.length = 1 ∧
    ((([⟨1, 2, 3, 100⟩, ⟨2, 3, 1, 50⟩] : List ItemInput).map fun it => it.market_id).dedup).length
      = 2 := by
  decide

/-- C3 amended: the mixed-market rejection lives in the order placement
flow of the calling UI layer: whenever the items resolve to two or more
distinct market ids the flow aborts before any insert, leaving the store
unchanged (and when it proceeds, the order market id is by construction
the single market id of the items, so no disagreement with the order is
possible); create_order itself performs no such check. -/
theorem place_order_mixed (db : Db) (uid : Nat) (items : List ItemInput)
    (h : 1 < ((items.map fun it => it.market_id).dedup).length) :
    place_order db uid items = (db, PlaceResult.mixedMarket) := by
  have hne : items ≠ [] := by
    intro he
    rw [he] at h
    simp at h
  unfold place_order
  rw [if_neg hne, if_pos h]

/-- C3 witness: two items from markets 2 and 3 make the placement flow
fail with the mixed-market error and leave the store unchanged. -/
theorem place_order_mixed_w :
    place_order ⟨[], [], 1⟩ 7 [⟨1, 2, 3, 100⟩, ⟨2, 3, 1, 50⟩]
      = (⟨[], [], 1⟩, PlaceResult.mixedMarket) :=
  place_order_mixed ⟨[], [], 1⟩ 7 [⟨1, 2, 3, 100⟩, ⟨2, 3, 1, 50⟩] (by decide)

/-- C4 counterexample: update_order_status has no terminal-state check: on
an order whose status is completed, setting status pending succeeds and
overwrites the row, where the claim requires failure with the status left
unchanged. -/
theorem update_terminal_cex :
    (update_order_status ⟨[⟨1, 7, 2, 0, "completed", none⟩], [], 2⟩ 1 "pending" 5).2.1 = true ∧
    (update_order_status ⟨[⟨1, 7, 2, 0, "completed", none⟩], [], 2⟩ 1 "pending" 5).1.orders
      = [⟨1, 7, 2, 0, "pending", some 5⟩] := by
  decide

/-- C4 amended: update_order_status validates only that the new status is
one of the six recognized values; it never inspects the current status, so
a transition out of completed or cancelled succeeds like any other: it
succeeds exactly for a recognized status, leaves the store unchanged for
an unrecognized one, and on success rewrites status and updated_at of
every row with the given order id regardless of the previous status. -/
theorem update_order_status_spec (db : Db) (oid : Nat) (st : String) (now : Nat) :
    ((update_order_status db oid st now).2.1 = true ↔ st ∈ valid_statuses) ∧
    (st ∉ valid_statuses → (update_order_status db oid st now).1 = db) ∧
    (st ∈ valid_statuses →
      (update_order_status db oid st now).1.orders
        = db.orders.map fun o =>
            if o.order_id = oid then { o with status := st, updated_at := some now } else o) := by
  unfold update_order_status
  by_cases hst : st ∈ valid_statuses
  · rw [if_neg (not_not_intro hst)]
    exact ⟨iff_of_true rfl hst, fun hns => absurd hst hns, fun _ => rfl⟩
  · rw [if_pos hst]
    exact ⟨iff_of_false (by simp) hst, fun _ => rfl, fun hmem => absurd hmem hst⟩

/-- C4 witness: an unrecognized status leaves the store unchanged. -/
theorem update_order_status_spec_w :
    (update_order_status ⟨[], [], 1⟩ 1 "zzz" 0).1 = ⟨[], [], 1⟩ :=
  (update_order_status_spec ⟨[], [], 1⟩ 1 "zzz" 0).2.1 (by decide)

/-- C5: evidence for the code bug: a seller (here user 10, who per the
scenario owns market 2) is granted can_manage_order on an order of market
3, and update_order_status takes no acting identity at all, so the very
call the claim requires to fail with PermissionDenied succeeds and sets
the foreign order to ready; no market-ownership validation exists even
though the source comment in can_manage_order defers one to the caller. -/
theorem seller_cross_market_update :
    can_manage_order ⟨10, "s", "s@x", "h", "seller", "active"⟩ ⟨1, 7, 3, 0, "pending", none⟩
      = true ∧
    (update_order_status ⟨[⟨1, 7, 3, 0, "pending", none⟩], [], 2⟩ 1 "ready" 5).2.1 = true ∧
    (update_order_status ⟨[⟨1, 7, 3, 0, "pending", none⟩], [], 2⟩ 1 "ready" 5).1.orders
      = [⟨1, 7, 3, 0, "ready", some 5⟩] := by
  decide

/-- C6: for every stored order, cancel_order succeeds exactly when the
acting identity is the super admin or the order customer and the current
status is neither completed nor cancelled; a non-admin non-owner caller
gets the permission error, a terminal order gets the cannot-cancel error,
and cancellation never succeeds on a terminal order. -/
theorem cancel_order_spec (db : Db) (oid uid : Nat) (role : String) (now : Nat)
    (o : OrderRow) (ho : get_order_by_id db oid = some o) :
    ((cancel_order db oid uid role now).2.1 = true ↔
      ((role = "super_admin" ∨ o.customer_id = uid) ∧
        o.status ∉ (["completed", "cancelled"] : List String))) ∧
    (¬(role = "super_admin" ∨ o.customer_id = uid) →
      (cancel_order db oid uid role now).2.2 = OrderMsg.permissionDenied) ∧
    ((role = "super_admin" ∨ o.customer_id = uid) →
      o.status ∈ (["completed", "cancelled"] : List String) →
      (cancel_order db oid uid role now).2.2 = OrderMsg.cannotCancel o.status) ∧
    (o.status ∈ (["completed", "cancelled"] : List String) →
      (cancel_order db oid uid role now).2.1 = false) := by
  unfold cancel_order
  rw [ho]
  dsimp only
  by_cases hperm : role ≠ "super_admin" ∧ o.customer_id ≠ uid
  · rw [if_pos hperm]
    have hnp : ¬(role = "super_admin" ∨ o.customer_id = uid) := by
      rintro (h1 | h2)
      · exact hperm.1 h1
      · exact hperm.2 h2
    exact ⟨iff_of_false (by simp) (fun hc => hnp hc.1), fun _ => rfl,
      fun hor _ => absurd hor hnp, fun _ => rfl⟩
  · have hor : role = "super_admin" ∨ o.customer_id = uid := by
      by_contra hno
      push_neg at hno
      exact hperm ⟨hno.1, hno.2⟩
    rw [if_neg hperm]
    by_cases hterm : o.status ∈ (["completed", "cancelled"] : List String)
    · rw [if_pos hterm]
      exact ⟨iff_of_false (by simp) (fun hc => hc.2 hterm), fun hn => absurd hor hn,
        fun _ _ => rfl, fun _ => rfl⟩
    · rw [if_neg hterm]
      have hupd : (update_order_status db oid "cancelled" now).2.1 = true := by
        unfold update_order_status
        rw [if_neg (not_not_intro (by decide : "cancelled" ∈ valid_statuses))]
      exact ⟨iff_of_true hupd ⟨hor, hterm⟩, fun hn => absurd hor hn,
        fun _ ht => absurd ht hterm, fun ht => absurd ht hterm⟩

/-- C6 witness: the super admin cancels a pending order successfully. -/
theorem cancel_order_spec_w :
    (cancel_order ⟨[⟨1, 7, 2, 0, "pending", none⟩], [], 2⟩ 1 9 "super_admin" 5).2.1 = true :=
  ((cancel_order_spec ⟨[⟨1, 7, 2, 0, "pending", none⟩], [], 2⟩ 1 9 "super_admin" 5
      ⟨1, 7, 2, 0, "pending", none⟩ (by decide)).1).mpr (by decide)

/-- C10: cancel_order is atomic on error: whenever it reports failure (the
order is missing, the caller lacks permission, or the order is already
terminal) it has returned before any write, so the store is unchanged. -/
theorem cancel_order_atomic (db : Db) (oid uid : Nat) (role : String) (now : Nat)
    (h : (cancel_order db oid uid role now).2.1 = false) :
    (cancel_order db oid uid role now).1 = db := by
  revert h
  unfold cancel_order
  cases hgo : get_order_by_id db oid with
  | none =>
    intro _
    rfl
  | some o =>
    dsimp only
    split_ifs with h1 h2
    · intro _
      rfl
    · intro _
      rfl
    · intro hfail
      exfalso
      have hupd : (update_order_status db oid "cancelled" now).2.1 = true := by
        unfold update_order_status
        rw [if_neg (not_not_intro (by decide : "cancelled" ∈ valid_statuses))]
      rw [hupd] at hfail
      exact absurd hfail (by simp)

/-- C10 witness: a cancel of a missing order fails and leaves the store
unchanged. -/
theorem cancel_order_atomic_w :
    (cancel_order ⟨[], [], 1⟩ 1 9 "customer" 0).1 = ⟨[], [], 1⟩ :=
  cancel_order_atomic ⟨[], [], 1⟩ 1 9 "customer" 0 (by decide)

/-- C7 counterexample: login checks the suspended status before verifying
the password, so a suspended account with a wrong password yields the
suspended error where the claim requires InvalidCredentials for every
password mismatch. -/
theorem login_suspended_cex :
    login (fun p h => p == h) [⟨3, "bob", "b@x", "secret", "customer", "suspended"⟩]
      "bob" "wrong" = LoginResult.accountSuspended ∧
    (("wrong" : String) == "secret") = false ∧
    LoginResult.accountSuspended ≠ LoginResult.invalidCredentials := by
  decide

/-- C7 amended: login fails with InvalidCredentials when no non-deleted
row matches the identifier (in particular when every matching identity is
deleted); for the matched identity the suspended and pending status errors
take precedence over password verification, a password mismatch yields
InvalidCredentials only for a status that is neither suspended nor
pending, and otherwise login succeeds with the identity (and a fresh
session row). -/
theorem login_spec (verify : String → String → Bool) (users : List User) (ident pw : String) :
    (find_user users ident = none →
      login verify users ident pw = LoginResult.invalidCredentials) ∧
    ((∀ u ∈ users, (u.username = ident ∨ u.email = ident) → u.status = "deleted") →
      login verify users ident pw = LoginResult.invalidCredentials) ∧
    (∀ u, find_user users ident = some u →
      ((u.status = "suspended" → login verify users ident pw = LoginResult.accountSuspended) ∧
       (u.status = "pending" → login verify users ident pw = LoginResult.accountPending) ∧
       (u.status ≠ "suspended" → u.status ≠ "pending" → verify pw u.password_hash = false →
         login verify users ident pw = LoginResult.invalidCredentials) ∧
       (u.status ≠ "suspended" → u.status ≠ "pending" → verify pw u.password_hash = true →
         login verify users ident pw = LoginResult.success u.user_id))) := by
  refine ⟨?_, ?_, ?_⟩
  · intro hn
    unfold login
    rw [hn]
  · intro hdel
    have hn : find_user users ident = none := by
      unfold find_user
      have hfil : users.filter (fun u =>
          decide ((u.username = ident ∨ u.email = ident) ∧ u.status ≠ "deleted")) = [] := by
        rw [List.filter_eq_nil_iff]
        intro u hu
        simp only [decide_eq_true_eq, not_and, not_not]
        intro hm
        exact hdel u hu hm
      rw [hfil]
      rfl
    unfold login
    rw [hn]
  · intro u hu
    unfold login
    rw [hu]
    dsimp only
    refine ⟨?_, ?_, ?_, ?_⟩
    · intro hs
      rw [if_pos hs]
    · intro hp
      rw [if_neg (by rw [hp]; decide), if_pos hp]
    · intro hns hnp hv
      rw [if_neg hns, if_neg hnp, hv]
      rfl
    · intro hns hnp hv
      rw [if_neg hns, if_neg hnp, hv]
      rfl

/-- C7 witness: an active account with the right password logs in. -/
theorem login_spec_w :
    login (fun p h => p == h) [⟨5, "alice", "a@x", "pw", "customer", "active"⟩]
      "alice" "pw" = LoginResult.success 5 := by
  have h := (login_spec (fun p h => p == h)
      [⟨5, "alice", "a@x", "pw", "customer", "active"⟩] "alice" "pw").2.2
      ⟨5, "alice", "a@x", "pw", "customer", "active"⟩ (by decide)
  exact h.2.2.2 (by decide) (by decide) (by decide)

theorem sum_const (l : List ℚ) (c : ℚ) (h : ∀ x ∈ l, x = c) : l.sum = c * l.length := by
  induction l with
  | nil => simp
  | cons a l ih =>
    rw [List.sum_cons, ih (fun x hx => h x (List.mem_cons_of_mem a hx)),
      h a (List.mem_cons_self a l), List.length_cons]
    push_cast
    ring

theorem listAvg_const (l : List ℚ) (c : ℚ) (hne : l ≠ []) (h : ∀ x ∈ l, x = c) :
    listAvg l = c := by
  have hlen : (l.length : ℚ) ≠ 0 := by
    have h0 : l.length ≠ 0 := by
      cases l with
      | nil => exact absurd rfl hne
      | cons a l => simp
    exact_mod_cast h0
  unfold listAvg
  rw [sum_const l c h, mul_div_assoc, div_self hlen, mul_one]

theorem calc_trend_empty (recs : List PriceRec) (pid : Nat) (mid : Option Nat)
    (days : Nat) (today : Int)
    (h : recent_half recs pid mid days today = [] ∨ older_half recs pid mid days today = []) :
    calculate_trend recs pid mid days today = "unknown" := by
  unfold calculate_trend trend_rows
  rcases h with hr | ho
  · rw [if_pos hr]
    by_cases hoe : older_half recs pid mid days today = []
    · rw [if_pos hoe]
      norm_num
    · rw [if_neg hoe]
      norm_num
  · rw [if_pos ho]
    by_cases hre : recent_half recs pid mid days today = []
    · rw [if_pos hre]
      norm_num
    · rw [if_neg hre]
      norm_num

theorem calc_trend_both (recs : List PriceRec) (pid : Nat) (mid : Option Nat)
    (days : Nat) (today : Int)
    (hre : recent_half recs pid mid days today ≠ [])
    (hoe : older_half recs pid mid days today ≠ []) :
    calculate_trend recs pid mid days today =
      (if listAvg ((recent_half recs pid mid days today).map PriceRec.price) = 0 ∨
          listAvg ((older_half recs pid mid days today).map PriceRec.price) = 0 then "unknown"
       else if 5 < (listAvg ((recent_half recs pid mid days today).map PriceRec.price)
            - listAvg ((older_half recs pid mid days today).map PriceRec.price))
            / listAvg ((older_half recs pid mid days today).map PriceRec.price) * 100 then
         "increasing"
       else if (listAvg ((recent_half recs pid mid days today).map PriceRec.price)
            - listAvg ((older_half recs pid mid days today).map PriceRec.price))
            / listAvg ((older_half recs pid mid days today).map PriceRec.price) * 100 < -5 then
         "decreasing"
       else "stable") := by
  have hb1 : (("recent" : String) == "older") = false := by decide
  unfold calculate_trend trend_rows
  rw [if_neg hre, if_neg hoe]
  set ra := listAvg ((recent_half recs pid mid days today).map PriceRec.price) with hra
  set oa := listAvg ((older_half recs pid mid days today).map PriceRec.price) with hoa
  norm_num [List.filter, hb1]
  by_cases h0 : ra = 0 ∨ oa = 0
  · rw [if_neg (by tauto), if_pos h0]
  · rw [if_pos (by tauto), if_neg h0]

/-- C8 counterexample: with a window whose recent half averages zero (one
record of price 0) and whose older half averages 100, the code yields
unknown because the Python truthiness guard treats the zero average as
missing, while the claimed classification (the spec trend rule, modelled
as specTrendClass) labels a drop of 100 percent as decreasing. -/
theorem trend_zero_recent_cex :
    calculate_trend [⟨1, 1, 100, 80⟩, ⟨1, 1, 0, 90⟩] 1 none 30 100 = "unknown" ∧
    recent_half [⟨1, 1, 100, 80⟩, ⟨1, 1, 0, 90⟩] 1 none 30 100 = [⟨1, 1, 0, 90⟩] ∧
    older_half [⟨1, 1, 100, 80⟩, ⟨1, 1, 0, 90⟩] 1 none 30 100 = [⟨1, 1, 100, 80⟩] ∧
    specTrendClass
      (some (listAvg ((recent_half [⟨1, 1, 100, 80⟩, ⟨1, 1, 0, 90⟩] 1 none 30 100).map
        PriceRec.price)))
      (some (listAvg ((older_half [⟨1, 1, 100, 80⟩, ⟨1, 1, 0, 90⟩] 1 none 30 100).map
        PriceRec.price))) = "decreasing" := by
  have h1 : recent_half [⟨1, 1, 100, 80⟩, ⟨1, 1, 0, 90⟩] 1 none 30 100 = [⟨1, 1, 0, 90⟩] := by
    decide
  have h2 : older_half [⟨1, 1, 100, 80⟩, ⟨1, 1, 0, 90⟩] 1 none 30 100 = [⟨1, 1, 100, 80⟩] := by
    decide
  have hb1 : (("recent" : String) == "older") = false := by decide
  have hb2 : (("older" : String) == "recent") = false := by decide
  refine ⟨?_, h1, h2, ?_⟩
  · unfold calculate_trend trend_rows
    rw [h1, h2]
    norm_num [listAvg, List.filter, hb1, hb2]
  · rw [h1, h2]
    norm_num [specTrendClass, listAvg]

/-- C8 amended: the trend is unknown whenever either half of the window
has no data, and also whenever either half average is zero (the Python
truthiness guard; the claim predicted a classification for a zero recent
average); with both halves populated and both averages nonzero it is
classified against the 5 percent thresholds on the percent change of the
recent average over the older; in particular all window prices constant
and nonzero, with both halves populated, yields stable. -/
theorem calculate_trend_spec :
    (∀ (recs : List PriceRec) (pid : Nat) (mid : Option Nat) (days : Nat) (today : Int),
      (recent_half recs pid mid days today = [] ∨ older_half recs pid mid days today = []) →
      calculate_trend recs pid mid days today = "unknown") ∧
    (∀ (recs : List PriceRec) (pid : Nat) (mid : Option Nat) (days : Nat) (today : Int),
      recent_half recs pid mid days today ≠ [] → older_half recs pid mid days today ≠ [] →
      calculate_trend recs pid mid days today =
        (if listAvg ((recent_half recs pid mid days today).map PriceRec.price) = 0 ∨
            listAvg ((older_half recs pid mid days today).map PriceRec.price) = 0 then "unknown"
         else if 5 < (listAvg ((recent_half recs pid mid days today).map PriceRec.price)
              - listAvg ((older_half recs pid mid days today).map PriceRec.price))
              / listAvg ((older_half recs pid mid days today).map PriceRec.price) * 100 then
           "increasing"
         else if (listAvg ((recent_half recs pid mid days today).map PriceRec.price)
              - listAvg ((older_half recs pid mid days today).map PriceRec.price))
              / listAvg ((older_half recs pid mid days today).map PriceRec.price) * 100 < -5 then
           "decreasing"
         else "stable")) ∧
    (∀ (recs : List PriceRec) (pid : Nat) (mid : Option Nat) (days : Nat) (today : Int) (c : ℚ),
      c ≠ 0 → (∀ r ∈ window_records recs pid mid days today, r.price = c) →
      recent_half recs pid mid days today ≠ [] → older_half recs pid mid days today ≠ [] →
      calculate_trend recs pid mid days today = "stable") := by
  refine ⟨calc_trend_empty, calc_trend_both, ?_⟩
  intro recs pid mid days today c hc hconst hre hoe
  have hmapr : ∀ x ∈ (recent_half recs pid mid days today).map PriceRec.price, x = c := by
    intro x hx
    obtain ⟨r, hr, rfl⟩ := List.mem_map.mp hx
    exact hconst r (List.mem_filter.mp hr).1
  have hmapo : ∀ x ∈ (older_half recs pid mid days today).map PriceRec.price, x = c := by
    intro x hx
    obtain ⟨r, hr, rfl⟩ := List.mem_map.mp hx
    exact hconst r (List.mem_filter.mp hr).1
  have hra := listAvg_const _ c (fun hm => hre (List.map_eq_nil_iff.mp hm)) hmapr
  have hoa := listAvg_const _ c (fun hm => hoe (List.map_eq_nil_iff.mp hm)) hmapo
  rw [calc_trend_both recs pid mid days today hre hoe, hra, hoa]
  rw [if_neg (by push_neg; exact ⟨hc, hc⟩)]
  rw [sub_self, zero_div, zero_mul]
  norm_num

/-- C8 witness: two records of constant price 100, one in each half of a
30-day window, classify as stable. -/
theorem calculate_trend_spec_w :
    calculate_trend [⟨1, 1, 100, 80⟩, ⟨1, 1, 100, 90⟩] 1 none 30 100 = "stable" :=
  calculate_trend_spec.2.2 [⟨1, 1, 100, 80⟩, ⟨1, 1, 100, 90⟩] 1 none 30 100 100
    (by norm_num) (by decide) (by decide) (by decide)

/-- C9 counterexample: a nonempty series of six records yields no smoothed
series at all (get_price_forecast_data returns None below seven records),
where the claim promises a 1:1 aligned output for every input series. -/
theorem forecast_short_cex :
    get_price_forecast_data [10, 11, 12, 13, 14, 15] = none ∧
    ([10, 11, 12, 13, 14, 15] : List ℚ) ≠ [] := by
  constructor
  · unfold get_price_forecast_data
    rw [if_pos (by decide)]
  · simp

/-- C9 amended: for every input price series of at least seven records,
the smoothed series is produced aligned 1:1 with the input, element i
being the average of the trailing 7 records ending at i, or, for the
first 6 positions, the average of all i+1 available points so far;
shorter series produce no output. -/
theorem moving_average_spec (prices : List ℚ) (h : 7 ≤ prices.length) :
    get_price_forecast_data prices = some (moving_averages prices) ∧
    (moving_averages prices).length = prices.length ∧
    (∀ i, i < prices.length →
      (moving_averages prices).getD i 0 =
        if i < 6 then (prices.take (i + 1)).sum / ((i : ℚ) + 1)
        else ((prices.drop (i - 6)).take 7).sum / 7) := by
  refine ⟨?_, ?_, ?_⟩
  · unfold get_price_forecast_data
    rw [if_neg (by omega)]
  · unfold moving_averages
    rw [List.length_map, List.length_range]
  · intro i hi
    unfold moving_averages
    rw [List.getD_eq_getElem?_getD, List.getElem?_map, List.getElem?_range hi]
    rfl

/-- C9 witness: a seven-record series gets a smoothed series whose last
element is the average of all seven records. -/
theorem moving_average_spec_w :
    get_price_forecast_data [1, 2, 3, 4, 5, 6, 7]
      = some (moving_averages [1, 2, 3, 4, 5, 6, 7]) ∧
    (moving_averages ([1, 2, 3, 4, 5, 6, 7] : List ℚ)).getD 6 0 = 4 := by
  refine ⟨(moving_average_spec [1, 2, 3, 4, 5, 6, 7] (by decide)).1, ?_⟩
  have hr : List.range ([1, 2, 3, 4, 5, 6, 7] : List ℚ).length = [0, 1, 2, 3, 4, 5, 6] := by
    decide
  unfold moving_averages
  rw [hr]
  norm_num

end MarketTracker
